import Mathlib

/-!
Verification of the orchestration core of the Image-Variation application
(`src/main.py`, class `ImageVariationApp`) against its specification.

The embedding is shallow: each method of the class becomes a pure Lean
function over explicit state.  Wall-clock instants (Python `time.time()`
floats) are modelled as rationals; file sizes in megabytes are rationals;
the filesystem is a map from path strings to file contents.  Calls that can
raise a Python exception return `Option`/`Except`-style results, with `none`
standing for an uncaught exception at that point.

GUI plumbing (Tk widgets, dialogs) is modelled only where the claims touch
it: the mutable fields `file_path`, `output_directory`, the count entry, the
progress bar and the button states become a record `UIState`, and the
external collaborators (OpenAI dispatch, HTTP fetch) become oracle functions
passed in as parameters.  `enforce_rate_limit` only delays and mutates the
timestamp list, so the batch loop is modelled without threading it.
-/

namespace ImageVariationApp

/-! ## Rate limiter (`enforce_rate_limit`, src/main.py lines 156-179)

The Python method reads the clock once (`current_time = time.time()`),
filters out timestamps `t` with `current_time - t >= 60`, and, when at least
`num_requests` remain, sleeps `60 - (current_time - timestamps[0])` seconds,
drops the oldest timestamp, and finally appends `current_time` (the value
read before sleeping).  Indexing `timestamps[0]` raises `IndexError` when the
filtered list is empty (only possible for `num_requests = 0`); that abnormal
exit is `none`.  The result carries the slept duration and the new list. -/
def enforce_rate_limit (now : ℚ) (num_requests : ℕ) (ts : List ℚ) :
    Option (ℚ × List ℚ) :=
  let kept := ts.filter (fun t => now - t < 60)
  if kept.length ≥ num_requests then
    match kept with
    | [] => none
    | t0 :: rest => some (60 - (now - t0), rest ++ [now])
  else
    some (0, kept ++ [now])

/-- A sequence of `enforce_rate_limit` calls, one per clock reading in
`times`, starting from timestamp list `ts`; `none` if any call raises. -/
def acquireSeq (num_requests : ℕ) (times : List ℚ) (ts : List ℚ) :
    Option (List ℚ) :=
  match times with
  | [] => some ts
  | now :: later =>
    match enforce_rate_limit now num_requests ts with
    | none => none
    | some (_, ts1) => acquireSeq num_requests later ts1

/-- One successful `enforce_rate_limit` call never grows the timestamp list
beyond the quota. -/
theorem enforce_rate_limit_length_le (now : ℚ) (Q : ℕ) (ts : List ℚ)
    (w : ℚ) (ts1 : List ℚ) (hlen : ts.length ≤ Q)
    (h : enforce_rate_limit now Q ts = some (w, ts1)) :
    ts1.length ≤ Q := by
  unfold enforce_rate_limit at h
  simp only [] at h
  have hkle : (ts.filter (fun t => now - t < 60)).length ≤ ts.length :=
    List.length_filter_le _ _
  split at h
  · split at h
    · exact absurd h (by simp)
    · rename_i hge t0 rest hc
      rw [Option.some.injEq, Prod.mk.injEq] at h
      have hlen1 : ts1.length = rest.length + 1 := by
        rw [← h.2]; simp
      have hlen2 : (ts.filter (fun t => now - t < 60)).length = rest.length + 1 := by
        rw [hc]; simp
      omega
  · rename_i hlt
    rw [Option.some.injEq, Prod.mk.injEq] at h
    have hlen1 : ts1.length = (ts.filter (fun t => now - t < 60)).length + 1 := by
      rw [← h.2]; simp
    omega

/-- Invariant preserved across any successful call sequence: the stored list
never holds more than `Q` timestamps. -/
theorem acquireSeq_length_le (Q : ℕ) (times : List ℚ) (ts s1 : List ℚ)
    (hlen : ts.length ≤ Q) (h : acquireSeq Q times ts = some s1) :
    s1.length ≤ Q := by
  induction times generalizing ts with
  | nil =>
    simp [acquireSeq] at h
    exact h ▸ hlen
  | cons now later ih =>
    unfold acquireSeq at h
    rcases he : enforce_rate_limit now Q ts with _ | ⟨w, ts1⟩
    · rw [he] at h; simp at h
    · rw [he] at h
      exact ih ts1 (enforce_rate_limit_length_le now Q ts w ts1 hlen he) h

/-- C1: for every quota `Q` and every sequence of `enforce_rate_limit`
calls starting from the empty timestamp list, whenever the limiter yields
control back, the number of recorded timestamps lying inside any trailing
60-second window is at most `Q`. -/
theorem rate_limit_window_quota (Q : ℕ) (times : List ℚ) (s1 : List ℚ)
    (h : acquireSeq Q times [] = some s1) (t : ℚ) :
    (s1.filter (fun v => t - v < 60)).length ≤ Q := by
  have hlen : s1.length ≤ Q :=
    acquireSeq_length_le Q times [] s1 (by simp) h
  exact le_trans (List.length_filter_le _ _) hlen

/-- C1 witness: six back-to-back calls at quota 5. -/
theorem rate_limit_window_quota_witness :
    ((([0, 0, 0, 0, 0] : List ℚ)).filter (fun v => (10 : ℚ) - v < 60)).length ≤ 5 :=
  rate_limit_window_quota 5 [0, 0, 0, 0, 0, 0] [0, 0, 0, 0, 0]
    (by norm_num [acquireSeq, enforce_rate_limit]) 10

/-- C6: whenever the post-filter list is nonempty and its length reaches the
quota, the call sleeps exactly `60 - (now - oldest)` (a nonnegative amount,
so the clamp to 0 is vacuous), and the oldest timestamp is dropped before
`now` is appended. -/
theorem rate_limit_wait_formula (now : ℚ) (Q : ℕ) (ts : List ℚ)
    (t0 : ℚ) (rest : List ℚ)
    (hfilter : ts.filter (fun t => now - t < 60) = t0 :: rest)
    (hfull : (ts.filter (fun t => now - t < 60)).length ≥ Q) :
    enforce_rate_limit now Q ts = some (60 - (now - t0), rest ++ [now]) ∧
      0 ≤ 60 - (now - t0) := by
  have ht0 : t0 ∈ ts.filter (fun t => now - t < 60) := by
    rw [hfilter]; exact List.mem_cons_self _ _
  have hlt : now - t0 < 60 := by
    have := List.of_mem_filter ht0
    exact of_decide_eq_true this
  constructor
  · unfold enforce_rate_limit
    simp only []
    rw [if_pos hfull, hfilter]
  · linarith

/-- C6 witness: one timestamp 10 seconds old at quota 1 forces a 50-second
wait. -/
theorem rate_limit_wait_formula_witness :
    enforce_rate_limit 0 1 [-10] = some (60 - ((0 : ℚ) - (-10)), [] ++ [0]) ∧
      (0 : ℚ) ≤ 60 - (0 - (-10)) :=
  rate_limit_wait_formula 0 1 [-10] (-10) [] (by norm_num) (by norm_num)

/-- C9 counterexample: the claimed invariant omits any hypothesis relating
the current clock reading to the stored timestamps.  With stored list
`[100]` (sorted, length 1 ≤ 5) and a clock reading of `50`, the call
succeeds but appends `50` after `100`, so the resulting list is no longer
sorted non-decreasing. -/
theorem rate_limit_sorted_cex :
    (([(100 : ℚ)] : List ℚ).length ≤ 5 ∧ List.Sorted (· ≤ ·) [(100 : ℚ)]) ∧
      enforce_rate_limit 50 5 [100] = some (0, [100, 50]) ∧
      ¬ List.Sorted (· ≤ ·) [(100 : ℚ), 50] := by
  refine ⟨⟨by norm_num, List.sorted_singleton _⟩, ?_, ?_⟩
  · norm_num [enforce_rate_limit]
  · intro hs
    have := List.rel_of_sorted_cons hs 50 (List.mem_singleton.mpr rfl)
    norm_num at this

/-- C9 (amended with a monotone-clock hypothesis: every stored timestamp is
at most the current clock reading): any successful call keeps the list at
or below the quota length, keeps it sorted non-decreasing, and produces
exactly the kept old timestamps followed by the one newly appended `now`. -/
theorem rate_limit_state_invariant (now : ℚ) (Q : ℕ) (ts : List ℚ)
    (w : ℚ) (ts1 : List ℚ)
    (hlen : ts.length ≤ Q) (hsort : List.Sorted (· ≤ ·) ts)
    (hmono : ∀ t ∈ ts, t ≤ now)
    (h : enforce_rate_limit now Q ts = some (w, ts1)) :
    ts1.length ≤ Q ∧ List.Sorted (· ≤ ·) ts1 ∧
      ∃ kept, kept.Sublist ts ∧ ts1 = kept ++ [now] := by
  refine ⟨enforce_rate_limit_length_le now Q ts w ts1 hlen h, ?_⟩
  have hsub : (ts.filter (fun t => now - t < 60)).Sublist ts :=
    List.filter_sublist ts
  have hsortk : List.Sorted (· ≤ ·) (ts.filter (fun t => now - t < 60)) :=
    hsort.sublist hsub
  unfold enforce_rate_limit at h
  simp only [] at h
  split at h
  · split at h
    · exact absurd h (by simp)
    · rename_i hge t0 rest hc
      rw [Option.some.injEq, Prod.mk.injEq] at h
      have hrest : rest.Sublist ts := by
        have : rest.Sublist (t0 :: rest) := List.sublist_cons_self _ _
        exact this.trans (hc ▸ hsub)
      have hrs : List.Sorted (· ≤ ·) rest := by
        rw [hc] at hsortk
        exact hsortk.of_cons
      constructor
      · rw [← h.2]
        refine List.pairwise_append.mpr ⟨hrs, List.sorted_singleton _, ?_⟩
        intro x hx y hy
        rw [List.mem_singleton] at hy
        subst hy
        exact hmono x (hrest.mem hx)
      · exact ⟨rest, hrest, h.2.symm⟩
  · rw [Option.some.injEq, Prod.mk.injEq] at h
    constructor
    · rw [← h.2]
      refine List.pairwise_append.mpr ⟨hsortk, List.sorted_singleton _, ?_⟩
      intro x hx y hy
      rw [List.mem_singleton] at hy
      subst hy
      exact hmono x (hsub.mem hx)
    · exact ⟨ts.filter (fun t => now - t < 60), hsub, h.2.symm⟩

/-- C9 witness: two expired timestamps at quota 5 with the clock at 100. -/
theorem rate_limit_state_invariant_witness :
    ([(100 : ℚ)] : List ℚ).length ≤ 5 ∧ List.Sorted (· ≤ ·) [(100 : ℚ)] ∧
      ∃ kept, kept.Sublist [(10 : ℚ), 20] ∧ [(100 : ℚ)] = kept ++ [100] :=
  rate_limit_state_invariant 100 5 [10, 20] 0 [100] (by norm_num)
    (by norm_num [List.sorted_cons]) (by norm_num)
    (by norm_num [enforce_rate_limit])

/-! ## Compressor (`compress_image`, src/main.py lines 125-154) and the
size gate in `select_file` (lines 104-110)

`compress_image` re-encodes the opened image to
`os.path.join(os.path.dirname(image_path), "compressed_" + basename)`, then
runs `while file_size > max_size_mb:` shrinking both dimensions to
`int(width * 0.9)`/`int(height * 0.9)` and re-saving to the same path each
iteration.  The size of the encoded file is an external property of the
codec, so it enters the embedding as an oracle `sizeOf w h` giving the
saved size in megabytes at dimensions `w × h` (format and quality are fixed
for the whole call).  The loop itself carries no iteration bound, so it is
embedded with explicit fuel: `none` means the loop is still running after
`fuel` size checks. -/
def resizeLoop (sizeOf : ℕ → ℕ → ℚ) (max_size_mb : ℚ) :
    ℕ → ℕ → ℕ → Option (ℕ × ℕ)
  | 0, _, _ => none
  | fuel + 1, width, height =>
    if sizeOf width height > max_size_mb then
      resizeLoop sizeOf max_size_mb fuel (width * 9 / 10) (height * 9 / 10)
    else
      some (width, height)

/-- The size gate of `select_file`: compression runs only when the selected
file measures strictly more than `max_size_mb` megabytes; `compressed`
stands for the path `compress_image` would return. -/
def select_file (path : String) (sizeMB : ℚ) (compressed : String)
    (max_size_mb : ℚ) : String :=
  if sizeMB > max_size_mb then compressed else path

/-- `os.path.join` on a directory and a basename. -/
def joinPath (dir base : String) : String := dir ++ "/" ++ base

/-- The path `compress_image` writes:
`os.path.join(os.path.dirname(image_path), "compressed_" + basename)`. -/
def compressed_path (dir base : String) : String :=
  joinPath dir ("compressed_" ++ base)

/-- Overwriting update of a filesystem modelled as a map from path to
contents. -/
def writeFile {B : Type} (fs : String → Option B) (p : String) (b : B) :
    String → Option B :=
  fun q => if q = p then some b else fs q

/-- Filesystem effect of `compress_image` on the source `dir`/`base`: every
`img.save` in the method targets `compressed_path`, so the final filesystem
is one overwriting update at that path with the last encoded contents. -/
def compress_image_fs {B : Type} (fs : String → Option B) (dir base : String)
    (encoded : B) : String → Option B :=
  writeFile fs (compressed_path dir base) encoded

/-- C3 (code defect): the resize loop of `compress_image` has no
maximum-iteration bound.  Against a codec whose encoded file measures 5 MB
at every dimension, with the 4 MB ceiling, the loop is still running after
any number of iterations, from any starting dimensions: no fuel suffices,
so the code can loop forever instead of stopping at an explicit bound. -/
theorem compress_loop_never_terminates :
    ∀ (fuel width height : ℕ),
      resizeLoop (fun _ _ => 5) 4 fuel width height = none := by
  intro fuel
  induction fuel with
  | zero => intro width height; rfl
  | succ n ih =>
    intro width height
    rw [resizeLoop, if_pos (by norm_num)]
    exact ih _ _

/-- C7: an image already at or under the ceiling is left alone: the
`select_file` gate keeps the original path (no compression call), and even
a direct `compress_image` whose first re-encode is already at or under the
ceiling performs zero resize iterations. -/
theorem compress_noop_under_ceiling (path compressed : String) (sizeMB : ℚ)
    (hsize : sizeMB ≤ 4) :
    select_file path sizeMB compressed 4 = path ∧
      ∀ (sizeOf : ℕ → ℕ → ℚ) (width height fuel : ℕ), sizeOf width height ≤ 4 →
        resizeLoop sizeOf 4 (fuel + 1) width height = some (width, height) := by
  constructor
  · unfold select_file
    rw [if_neg (not_lt.mpr hsize)]
  · intro sizeOf width height fuel hle
    rw [resizeLoop, if_neg (not_lt.mpr hle)]

/-- C7 witness: a 3 MB selection is passed through untouched. -/
theorem compress_noop_under_ceiling_witness :
    select_file "img.png" 3 "compressed_img.png" 4 = "img.png" ∧
      ∀ (sizeOf : ℕ → ℕ → ℚ) (width height fuel : ℕ), sizeOf width height ≤ 4 →
        resizeLoop sizeOf 4 (fuel + 1) width height = some (width, height) :=
  compress_noop_under_ceiling "img.png" "compressed_img.png" 3 (by norm_num)

/-- C8: `compress_image` writes to the distinct fresh path
`compressed_{basename}` next to the source and never to the source itself:
after the call the source file holds exactly the bytes it held before, and
the compressed file holds the new encoding. -/
theorem compress_preserves_source {B : Type} (fs : String → Option B)
    (dir base : String) (encoded : B) :
    compressed_path dir base ≠ joinPath dir base ∧
      compress_image_fs fs dir base encoded (joinPath dir base) =
        fs (joinPath dir base) ∧
      compress_image_fs fs dir base encoded (compressed_path dir base) =
        some encoded := by
  have hne : compressed_path dir base ≠ joinPath dir base := by
    intro h
    have hlen := congrArg String.length h
    have h11 : ("compressed_" : String).length = 11 := rfl
    simp only [compressed_path, joinPath, String.length_append, h11] at hlen
    omega
  refine ⟨hne, ?_, ?_⟩
  · unfold compress_image_fs writeFile
    rw [if_neg (fun h => hne h.symm)]
  · unfold compress_image_fs writeFile
    rw [if_pos rfl]

/-! ## Batch orchestrator (`generate_variations`, src/main.py lines 196-276)

The provider dispatch (`client.images.create_variation`) and the per-image
fetch-and-write (`requests.get(url).content` plus the `open`/`write`) are
external collaborators; they enter the embedding as oracles indexed by the
running image count: `dispatch c n` is the provider call made when `c`
images exist so far and `n` are requested, `fetch i` is the fetch and write
of image number `i` (0-based).  An `Except.error` is a raised Python
exception.  `enforce_rate_limit` only sleeps and touches the timestamp
list, so it is not threaded through the loop. -/

/-- The saving loop of one batch (`for i in range(n_value):`): fetch each
result and write it to `output_dir/regen{images_created+1}_{image_name}`,
incrementing `images_created` per image; the first raised exception aborts
the loop.  Returns the files written (path and contents, in order) and the
raised exception, if any. -/
def saveBatch {E B : Type} (fetch : ℕ → Except E B)
    (output_directory image_name : String) :
    ℕ → ℕ → List (String × B) × Option E
  | _, 0 => ([], none)
  | images_created, n + 1 =>
    match fetch images_created with
    | .error e => ([], some e)
    | .ok b =>
      let final_path :=
        joinPath output_directory
          ("regen" ++ toString (images_created + 1) ++ "_" ++ image_name)
      let rest := saveBatch fetch output_directory image_name (images_created + 1) n
      ((final_path, b) :: rest.1, rest.2)

/-- The `while images_created < repetitions:` loop: each iteration computes
`n_value = min(5, repetitions - images_created)`, dispatches one provider
call, and saves the batch; any raised exception aborts the whole loop.
Returns the sizes of the provider calls issued (in order), the files
written (in order), and the first raised exception, if any. -/
def processLoop {E B : Type} (dispatch : ℕ → ℕ → Except E Unit)
    (fetch : ℕ → Except E B) (output_directory image_name : String)
    (repetitions images_created : ℕ) :
    List ℕ × List (String × B) × Option E :=
  if _h : images_created < repetitions then
    let n_value := min 5 (repetitions - images_created)
    match dispatch images_created n_value with
    | .error e => ([n_value], [], some e)
    | .ok _ =>
      let batch := saveBatch fetch output_directory image_name images_created n_value
      match batch.2 with
      | some e => ([n_value], batch.1, some e)
      | none =>
        let rest := processLoop dispatch fetch output_directory image_name
          repetitions (images_created + n_value)
        (n_value :: rest.1, batch.1 ++ rest.2.1, rest.2.2)
  else
    ([], [], none)
termination_by repetitions - images_created
decreasing_by
  simp_wf
  omega

/-- The file written for 0-based image number `i`. -/
def regenFile {B : Type} (output_directory image_name : String)
    (bytes : ℕ → B) (i : ℕ) : String × B :=
  (joinPath output_directory ("regen" ++ toString (i + 1) ++ "_" ++ image_name),
   bytes i)

/-- When every fetch succeeds, one batch writes exactly its `n` files, in
index order. -/
theorem saveBatch_ok {E B : Type} (fetch : ℕ → Except E B)
    (output_directory image_name : String) (bytes : ℕ → B)
    (hfetch : ∀ i, fetch i = .ok (bytes i)) :
    ∀ n c, saveBatch fetch output_directory image_name c n =
      ((List.range' c n).map (regenFile output_directory image_name bytes),
       none) := by
  intro n
  induction n with
  | zero => intro c; rfl
  | succ m ih =>
    intro c
    rw [saveBatch, hfetch c]
    simp only []
    rw [ih (c + 1)]
    rw [List.range'_succ, List.map_cons]
    rfl

/-- When every oracle call succeeds, the loop from `c` images created
issues `⌈(R-c)/5⌉` provider calls of the dictated sizes and writes the
files for images `c,…,R-1`, raising nothing. -/
theorem processLoop_ok {E B : Type} (dispatch : ℕ → ℕ → Except E Unit)
    (fetch : ℕ → Except E B) (output_directory image_name : String)
    (bytes : ℕ → B)
    (hdisp : ∀ c n, dispatch c n = .ok ())
    (hfetch : ∀ i, fetch i = .ok (bytes i)) (R : ℕ) :
    ∀ m c, R - c = m →
      processLoop dispatch fetch output_directory image_name R c =
        ((List.range ((R - c + 4) / 5)).map (fun k => min 5 (R - c - 5 * k)),
         (List.range' c (R - c)).map (regenFile output_directory image_name bytes),
         none) := by
  intro m
  induction m using Nat.strong_induction_on with
  | _ m ih =>
    intro c hm
    by_cases h : c < R
    · have hn1 : 1 ≤ min 5 (R - c) := by omega
      rw [processLoop]
      rw [dif_pos h]
      simp only []
      rw [hdisp c (min 5 (R - c))]
      simp only []
      rw [saveBatch_ok fetch output_directory image_name bytes hfetch]
      simp only []
      rw [ih (R - (c + min 5 (R - c))) (by omega) (c + min 5 (R - c)) rfl]
      simp only []
      refine congrArg₂ _ ?_ (congrArg₂ _ ?_ rfl)
      · -- provider-call trace
        by_cases h5 : R - c ≤ 5
        · have hmin : min 5 (R - c) = R - c := by omega
          rw [hmin]
          have hz : R - (c + (R - c)) = 0 := by omega
          rw [hz]
          have h04 : (0 + 4) / 5 = 0 := by norm_num
          rw [h04]
          have hone : (R - c + 4) / 5 = 1 := by omega
          rw [hone]
          have hr1 : List.range 1 = [0] := rfl
          rw [hr1]
          simp only [List.range_zero, List.map_nil, List.map_cons,
            List.cons.injEq, and_true]
          omega
        · have hmin : min 5 (R - c) = 5 := by omega
          rw [hmin]
          have hrw : R - (c + 5) = R - c - 5 := by omega
          rw [hrw]
          have hdiv : (R - c + 4) / 5 = (R - c - 5 + 4) / 5 + 1 := by omega
          rw [hdiv, List.range_succ_eq_map, List.map_cons, List.map_map]
          refine congrArg₂ _ ?_ ?_
          · omega
          · refine List.map_congr_left ?_
            intro k _
            simp only [Function.comp_apply]
            omega
      · -- files written
        rw [← List.map_append]
        refine congrArg _ ?_
        rw [List.range'_append_1]
        exact congrArg (List.range' c) (by omega)
    · have hz : R - c = 0 := by omega
      rw [processLoop, dif_neg h, hz]
      norm_num

/-- C2: with every provider call and every fetch succeeding, the loop for a
requested count `R ≥ 1` issues exactly `⌈R/5⌉` provider calls (the `k`-th
sized `min 5 (R - images_created)` with `images_created = 5k` at that
point), the last call sized `R mod 5` — or 5 when 5 divides `R` — and
writes exactly the `R` files `regen1_…` through `regenR_…` in order, the
1-based running index never resetting across batches. -/
theorem orchestrator_batches_and_files {E B : Type}
    (dispatch : ℕ → ℕ → Except E Unit) (fetch : ℕ → Except E B)
    (output_directory image_name : String) (bytes : ℕ → B) (R : ℕ)
    (hdisp : ∀ c n, dispatch c n = .ok ())
    (hfetch : ∀ i, fetch i = .ok (bytes i)) (hR : 1 ≤ R) :
    processLoop dispatch fetch output_directory image_name R 0 =
      ((List.range ((R + 4) / 5)).map (fun k => min 5 (R - 5 * k)),
       (List.range' 0 R).map (regenFile output_directory image_name bytes),
       none) ∧
      ((List.range ((R + 4) / 5)).map (fun k => min 5 (R - 5 * k))).length =
        (R + 4) / 5 ∧
      ((List.range ((R + 4) / 5)).map (fun k => min 5 (R - 5 * k))).getLast? =
        some (if R % 5 = 0 then 5 else R % 5) := by
  refine ⟨?_, ?_, ?_⟩
  · have := processLoop_ok dispatch fetch output_directory image_name bytes
      hdisp hfetch R R 0 rfl
    simpa using this
  · simp
  · have hT : (R + 4) / 5 = ((R + 4) / 5 - 1) + 1 := by omega
    rw [hT, List.range_succ, List.map_append, List.map_cons, List.map_nil,
      List.getLast?_concat]
    refine congrArg some ?_
    by_cases h5 : R % 5 = 0
    · rw [if_pos h5]; omega
    · rw [if_neg h5]; omega

/-- C2 witness: twelve requested images with always-succeeding oracles. -/
theorem orchestrator_batches_and_files_witness :
    processLoop (fun _ _ => Except.ok ()) (fun i => (Except.ok i : Except Unit ℕ))
        "out" "x.png" 12 0 =
      ((List.range ((12 + 4) / 5)).map (fun k => min 5 (12 - 5 * k)),
       (List.range' 0 12).map (regenFile "out" "x.png" (fun i => i)),
       none) ∧
      ((List.range ((12 + 4) / 5)).map (fun k => min 5 (12 - 5 * k))).length =
        (12 + 4) / 5 ∧
      ((List.range ((12 + 4) / 5)).map (fun k => min 5 (12 - 5 * k))).getLast? =
        some (if 12 % 5 = 0 then 5 else 12 % 5) :=
  orchestrator_batches_and_files (fun _ _ => Except.ok ())
    (fun i => (Except.ok i : Except Unit ℕ)) "out" "x.png" (fun i => i) 12
    (fun _ _ => rfl) (fun _ => rfl) (by norm_num)

/-- A batch whose fetch number `c + j` raises, while the `j` earlier fetches
of the batch succeed, writes exactly those `j` files and returns the raised
exception. -/
theorem saveBatch_error {E B : Type} (fetch : ℕ → Except E B)
    (output_directory image_name : String) (bytes : ℕ → B) (e : E) :
    ∀ j n c, j < n →
      (∀ i, i < j → fetch (c + i) = .ok (bytes (c + i))) →
      fetch (c + j) = .error e →
      saveBatch fetch output_directory image_name c n =
        ((List.range' c j).map (regenFile output_directory image_name bytes),
         some e) := by
  intro j
  induction j with
  | zero =>
    intro n c hjn _ herr
    match n, hjn with
    | m + 1, _ =>
      rw [saveBatch]
      rw [show fetch c = .error e from by simpa using herr]
      rfl
  | succ k ih =>
    intro n c hjn hok herr
    match n, hjn with
    | m + 1, hjn =>
      rw [saveBatch]
      have hc : fetch c = .ok (bytes c) := by
        have := hok 0 (by omega)
        simpa using this
      rw [hc]
      simp only []
      rw [ih m (c + 1) (by omega) ?later ?fail]
      case later =>
        intro i hi
        have := hok (i + 1) (by omega)
        rwa [show c + (i + 1) = c + 1 + i by omega] at this
      case fail =>
        have := herr
        rwa [show c + (k + 1) = c + 1 + k by omega] at this
      rw [List.range'_succ, List.map_cons]
      rfl

/-! ## UI state, validation, and the full `generate_variations` method -/

/-- The mutable UI fields read or written by validation, `reset_ui` and the
success/failure paths of `generate_variations`.  `file_path` and
`output_directory` start as `None` and hold `""` when a dialog is
cancelled, hence `Option String`; `buttons_enabled` summarises the shared
`NORMAL`/`DISABLED` state of the three buttons, which the code always
switches together. -/
structure UIState where
  file_path : Option String
  output_directory : Option String
  num_variations_entry : String
  progress : ℚ
  status_text : String
  buttons_enabled : Bool
deriving Repr, DecidableEq

/-- `reset_ui` (src/main.py lines 181-194): clears both selected paths and
the count entry, zeroes the progress bar, resets the status label and
re-enables all three buttons. -/
def reset_ui (_s : UIState) : UIState :=
  { file_path := none
    output_directory := none
    num_variations_entry := ""
    progress := 0
    status_text := "Ready"
    buttons_enabled := true }

/-- Python truthiness of an optional string field: `None` and `""` are
falsy, as tested by `if not self.file_path:`. -/
def falsyStr : Option String → Bool
  | none => true
  | some s => s.isEmpty

/-- The four distinct validation failures of `generate_variations`, in the
order the code can report them. -/
inductive ValidationError where
  | countNotANumber
  | countNonPositive
  | missingSource
  | missingOutputDir
deriving Repr, DecidableEq

/-- The validation head of `generate_variations` (lines 201-217): parse the
count (`int(...)` is an external library call, passed in as the oracle
`int_of`, with `none` for its `ValueError`), then require it positive, then
a truthy `file_path`, then a truthy `output_directory`; the method reports
the first failing check and returns. -/
def validate_inputs (int_of : String → Option ℤ) (entry : String)
    (file_path output_directory : Option String) : Option ValidationError :=
  match int_of entry with
  | none => some .countNotANumber
  | some repetitions =>
    if repetitions ≤ 0 then some .countNonPositive
    else if falsyStr file_path then some .missingSource
    else if falsyStr output_directory then some .missingOutputDir
    else none

/-- The full `generate_variations` method: on the first failing validation
check, report it and return with the state untouched, no provider call and
no file written; otherwise run the batch loop.  On success the status is
set and `reset_ui` runs; on a raised exception the status text carries
`str(e)`; either way the `finally` block re-enables the three buttons and
zeroes the progress bar.  Returns the final UI state, the provider-call
trace, and the files written; exceptions are their message strings. -/
def generate_variations {B : Type} (int_of : String → Option ℤ)
    (dispatch : ℕ → ℕ → Except String Unit)
    (fetch : ℕ → Except String B) (image_name : String) (s : UIState) :
    UIState × List ℕ × List (String × B) :=
  match int_of s.num_variations_entry with
  | none => (s, [], [])
  | some repetitions =>
    if repetitions ≤ 0 then (s, [], [])
    else if falsyStr s.file_path then (s, [], [])
    else if falsyStr s.output_directory then (s, [], [])
    else
      let busy := { s with buttons_enabled := false,
                           status_text := "Processing...", progress := 0 }
      let res := processLoop dispatch fetch (s.output_directory.getD "")
        image_name repetitions.toNat 0
      match res.2.2 with
      | none =>
        let sdone := reset_ui { busy with
          status_text := "Variations generated successfully!" }
        ({ sdone with buttons_enabled := true, progress := 0 },
         res.1, res.2.1)
      | some e =>
        ({ busy with status_text := "Error: " ++ e,
                     buttons_enabled := true, progress := 0 },
         res.1, res.2.1)

/-- C4: a raised exception anywhere in the processing loop — provider
dispatch, or the fetch-and-write of one result — aborts the job at once:
the failing batch is the last provider call issued (no retry, no further
call), every file already written before the failure stays in the result
(no rollback), the exception value itself is the returned error, and the
presentation boundary receives its message in the status text. -/
theorem orchestrator_abort_on_error {B : Type}
    (int_of : String → Option ℤ)
    (dispatch : ℕ → ℕ → Except String Unit) (fetch : ℕ → Except String B)
    (output_directory image_name : String) (s : UIState) (bytes : ℕ → B)
    (R c j : ℕ) (e e2 : String) (r : ℤ)
    (hc : c < R)
    (hfail : (j = 0 ∧ dispatch c (min 5 (R - c)) = .error e) ∨
      (dispatch c (min 5 (R - c)) = .ok () ∧ j < min 5 (R - c) ∧
        (∀ i, i < j → fetch (c + i) = .ok (bytes (c + i))) ∧
        fetch (c + j) = .error e))
    (hentry : int_of s.num_variations_entry = some r) (hpos : 0 < r)
    (hfp : falsyStr s.file_path = false)
    (hdir : falsyStr s.output_directory = false)
    (he2 : (processLoop dispatch fetch (s.output_directory.getD "")
        image_name r.toNat 0).2.2 = some e2) :
    processLoop dispatch fetch output_directory image_name R c =
      ([min 5 (R - c)],
       (List.range' c j).map (regenFile output_directory image_name bytes),
       some e) ∧
      (generate_variations int_of dispatch fetch image_name s).1.status_text =
        "Error: " ++ e2 ∧
      (generate_variations int_of dispatch fetch image_name s).2.2 =
        (processLoop dispatch fetch (s.output_directory.getD "")
          image_name r.toNat 0).2.1 := by
  have hrun : ∀ q : UIState × List ℕ × List (String × B),
      q = generate_variations int_of dispatch fetch image_name s →
      q.1.status_text = "Error: " ++ e2 ∧
      q.2.2 = (processLoop dispatch fetch (s.output_directory.getD "")
        image_name r.toNat 0).2.1 := by
    intro q hq
    unfold generate_variations at hq
    rw [hentry] at hq
    simp only [] at hq
    rw [if_neg (by omega : ¬ r ≤ 0)] at hq
    rw [hfp, hdir] at hq
    simp only [Bool.false_eq_true, if_false] at hq
    rw [he2] at hq
    subst hq
    exact ⟨rfl, rfl⟩
  refine ⟨?_, (hrun _ rfl).1, (hrun _ rfl).2⟩
  rw [processLoop, dif_pos hc]
  simp only []
  rcases hfail with ⟨hj0, hde⟩ | ⟨hdok, hjlt, hok, herr⟩
  · rw [hde]
    subst hj0
    rfl
  · rw [hdok]
    simp only []
    rw [saveBatch_error fetch output_directory image_name bytes e j
      (min 5 (R - c)) c hjlt hok herr]

/-- C4 witness: the very first provider call raises. -/
theorem orchestrator_abort_on_error_witness :
    processLoop (fun _ _ => (Except.error "boom" : Except String Unit))
        (fun i => (Except.ok i : Except String ℕ)) "out" "x.png" 7 0 =
      ([min 5 (7 - 0)],
       (List.range' 0 0).map (regenFile "out" "x.png" (fun i => i)),
       some "boom") ∧
      (generate_variations (fun _ => some 7)
          (fun _ _ => (Except.error "boom" : Except String Unit))
          (fun i => (Except.ok i : Except String ℕ)) "x.png"
          (UIState.mk (some "a.png") (some "out") "7" 0 "Ready" true)
        ).1.status_text = "Error: " ++ "boom" ∧
      (generate_variations (fun _ => some 7)
          (fun _ _ => (Except.error "boom" : Except String Unit))
          (fun i => (Except.ok i : Except String ℕ)) "x.png"
          (UIState.mk (some "a.png") (some "out") "7" 0 "Ready" true)
        ).2.2 =
        (processLoop (fun _ _ => (Except.error "boom" : Except String Unit))
          (fun i => (Except.ok i : Except String ℕ))
          ((some "out" : Option String).getD "") "x.png" (7 : ℤ).toNat 0).2.1 :=
  orchestrator_abort_on_error (fun _ => some 7)
    (fun _ _ => (Except.error "boom" : Except String Unit))
    (fun i => (Except.ok i : Except String ℕ)) "out" "x.png"
    (UIState.mk (some "a.png") (some "out") "7" 0 "Ready" true)
    (fun i => i) 7 0 0 "boom" "boom" 7
    (by norm_num) (Or.inl ⟨rfl, rfl⟩) rfl (by norm_num) rfl rfl
    (by rw [processLoop]; rfl)

/-- C5: validation follows the fixed order count, source, directory and
reports exactly the first failing check: an unparsable count is reported as
the count error and a parsed nonpositive count as the count error, whatever
else is missing; a missing source is reported exactly when the count
passed, whatever the directory; a missing directory exactly when both the
count and the source passed; and whenever any check fails the method
returns with the state untouched, no provider call issued and no file
written. -/
theorem validation_order_and_gate {B : Type}
    (int_of : String → Option ℤ)
    (dispatch : ℕ → ℕ → Except String Unit) (fetch : ℕ → Except String B)
    (image_name : String) (s : UIState) :
    (int_of s.num_variations_entry = none →
      validate_inputs int_of s.num_variations_entry s.file_path
        s.output_directory = some ValidationError.countNotANumber) ∧
    (∀ v, int_of s.num_variations_entry = some v → v ≤ 0 →
      validate_inputs int_of s.num_variations_entry s.file_path
        s.output_directory = some ValidationError.countNonPositive) ∧
    (∀ v, int_of s.num_variations_entry = some v → 0 < v →
      falsyStr s.file_path = true →
      validate_inputs int_of s.num_variations_entry s.file_path
        s.output_directory = some ValidationError.missingSource) ∧
    (∀ v, int_of s.num_variations_entry = some v → 0 < v →
      falsyStr s.file_path = false → falsyStr s.output_directory = true →
      validate_inputs int_of s.num_variations_entry s.file_path
        s.output_directory = some ValidationError.missingOutputDir) ∧
    (∀ err, validate_inputs int_of s.num_variations_entry s.file_path
        s.output_directory = some err →
      generate_variations int_of dispatch fetch image_name s = (s, [], [])) := by
  refine ⟨?_, ?_, ?_, ?_, ?_⟩
  · intro hn
    unfold validate_inputs
    rw [hn]
  · intro v hv hle
    unfold validate_inputs
    rw [hv]
    simp only []
    rw [if_pos hle]
  · intro v hv hpos hfp
    unfold validate_inputs
    rw [hv]
    simp only []
    rw [if_neg (by omega), hfp]
    rfl
  · intro v hv hpos hfp hod
    unfold validate_inputs
    rw [hv]
    simp only []
    rw [if_neg (by omega), hfp]
    simp only [Bool.false_eq_true, if_false]
    rw [hod]
    rfl
  · intro err herr
    rcases hn : int_of s.num_variations_entry with _ | v
    · unfold generate_variations
      rw [hn]
    · unfold validate_inputs at herr
      rw [hn] at herr
      simp only [] at herr
      by_cases hle : v ≤ 0
      · unfold generate_variations
        rw [hn]
        simp only []
        rw [if_pos hle]
      · rw [if_neg hle] at herr
        by_cases hfp : falsyStr s.file_path = true
        · unfold generate_variations
          rw [hn]
          simp only []
          rw [if_neg hle, hfp]
          rfl
        · rw [Bool.not_eq_true] at hfp
          rw [hfp] at herr
          simp only [Bool.false_eq_true, if_false] at herr
          by_cases hod : falsyStr s.output_directory = true
          · unfold generate_variations
            rw [hn]
            simp only []
            rw [if_neg hle, hfp]
            simp only [Bool.false_eq_true, if_false]
            rw [hod]
            rfl
          · rw [Bool.not_eq_true] at hod
            rw [hod] at herr
            simp at herr

/-- C5 witness: each check is exercised — an unparsable count with the
source also missing reports the count error, a nonpositive count likewise,
a missing source with a directory selected reports the source error, a
missing directory with count and source fine reports the directory error,
and the failing-count run performs no provider call and writes no file. -/
theorem validation_order_and_gate_witness :
    validate_inputs (fun _ => none) "abc" none (some "out") =
        some ValidationError.countNotANumber ∧
      validate_inputs (fun _ => some 0) "0" none (some "out") =
        some ValidationError.countNonPositive ∧
      validate_inputs (fun _ => some 3) "3" none (some "out") =
        some ValidationError.missingSource ∧
      validate_inputs (fun _ => some 3) "3" (some "a.png") none =
        some ValidationError.missingOutputDir ∧
      generate_variations (fun _ => none)
          (fun _ _ => (Except.ok () : Except String Unit))
          (fun i => (Except.ok i : Except String ℕ)) "x.png"
          (UIState.mk none (some "out") "abc" 0 "Ready" true) =
        (UIState.mk none (some "out") "abc" 0 "Ready" true, [], []) :=
  ⟨(validation_order_and_gate (fun _ => none)
      (fun _ _ => (Except.ok () : Except String Unit))
      (fun i => (Except.ok i : Except String ℕ)) "x.png"
      (UIState.mk none (some "out") "abc" 0 "Ready" true)).1 rfl,
   (validation_order_and_gate (fun _ => some 0)
      (fun _ _ => (Except.ok () : Except String Unit))
      (fun i => (Except.ok i : Except String ℕ)) "x.png"
      (UIState.mk none (some "out") "0" 0 "Ready" true)).2.1 0 rfl
      (by norm_num),
   (validation_order_and_gate (fun _ => some 3)
      (fun _ _ => (Except.ok () : Except String Unit))
      (fun i => (Except.ok i : Except String ℕ)) "x.png"
      (UIState.mk none (some "out") "3" 0 "Ready" true)).2.2.1 3 rfl
      (by norm_num) rfl,
   (validation_order_and_gate (fun _ => some 3)
      (fun _ _ => (Except.ok () : Except String Unit))
      (fun i => (Except.ok i : Except String ℕ)) "x.png"
      (UIState.mk (some "a.png") none "3" 0 "Ready" true)).2.2.2.1 3 rfl
      (by norm_num) rfl rfl,
   (validation_order_and_gate (fun _ => none)
      (fun _ _ => (Except.ok () : Except String Unit))
      (fun i => (Except.ok i : Except String ℕ)) "x.png"
      (UIState.mk none (some "out") "abc" 0 "Ready" true)).2.2.2.2
      ValidationError.countNotANumber
      ((validation_order_and_gate (fun _ => none)
        (fun _ _ => (Except.ok () : Except String Unit))
        (fun i => (Except.ok i : Except String ℕ)) "x.png"
        (UIState.mk none (some "out") "abc" 0 "Ready" true)).1 rfl)⟩

/-- C10: after a successful run the selected file, the output directory and
the count entry are cleared and the progress bar zeroed, so a new job needs
fresh selections; after a run that raises, the selections and the entry
survive untouched — only the buttons come back enabled and the progress bar
is zeroed. -/
theorem run_end_state {B : Type}
    (int_of : String → Option ℤ)
    (dispatch : ℕ → ℕ → Except String Unit) (fetch : ℕ → Except String B)
    (image_name : String) (s : UIState) (r : ℤ)
    (hentry : int_of s.num_variations_entry = some r) (hpos : 0 < r)
    (hfp : falsyStr s.file_path = false)
    (hdir : falsyStr s.output_directory = false) :
    (generate_variations int_of dispatch fetch image_name s).1.file_path =
      (if (processLoop dispatch fetch (s.output_directory.getD "")
          image_name r.toNat 0).2.2.isNone then none else s.file_path) ∧
    (generate_variations int_of dispatch fetch image_name s).1.output_directory =
      (if (processLoop dispatch fetch (s.output_directory.getD "")
          image_name r.toNat 0).2.2.isNone then none else s.output_directory) ∧
    (generate_variations int_of dispatch fetch image_name s).1.num_variations_entry =
      (if (processLoop dispatch fetch (s.output_directory.getD "")
          image_name r.toNat 0).2.2.isNone then "" else s.num_variations_entry) ∧
    (generate_variations int_of dispatch fetch image_name s).1.progress = 0 ∧
    (generate_variations int_of dispatch fetch image_name s).1.buttons_enabled =
      true := by
  have hrun : ∀ q : UIState × List ℕ × List (String × B),
      q = generate_variations int_of dispatch fetch image_name s →
      q.1.file_path =
        (if (processLoop dispatch fetch (s.output_directory.getD "")
            image_name r.toNat 0).2.2.isNone then none else s.file_path) ∧
      q.1.output_directory =
        (if (processLoop dispatch fetch (s.output_directory.getD "")
            image_name r.toNat 0).2.2.isNone then none else s.output_directory) ∧
      q.1.num_variations_entry =
        (if (processLoop dispatch fetch (s.output_directory.getD "")
            image_name r.toNat 0).2.2.isNone then "" else s.num_variations_entry) ∧
      q.1.progress = 0 ∧ q.1.buttons_enabled = true := by
    intro q hq
    unfold generate_variations at hq
    rw [hentry] at hq
    simp only [] at hq
    rw [if_neg (by omega : ¬ r ≤ 0)] at hq
    rw [hfp, hdir] at hq
    simp only [Bool.false_eq_true, if_false] at hq
    cases hres : (processLoop dispatch fetch (s.output_directory.getD "")
        image_name r.toNat 0).2.2 with
    | none =>
      rw [hres] at hq
      subst hq
      simp [hres, reset_ui]
    | some e =>
      rw [hres] at hq
      subst hq
      simp [hres]
  exact hrun _ rfl

/-- C10 witness: a fully valid three-image job with succeeding oracles. -/
theorem run_end_state_witness :
    (generate_variations (fun _ => some 3)
        (fun _ _ => (Except.ok () : Except String Unit))
        (fun i => (Except.ok i : Except String ℕ)) "x.png"
        (UIState.mk (some "a.png") (some "out") "3" 0 "Ready" true)).1.file_path =
      (if (processLoop (fun _ _ => (Except.ok () : Except String Unit))
          (fun i => (Except.ok i : Except String ℕ))
          ((some "out" : Option String).getD "") "x.png" (3 : ℤ).toNat 0
          ).2.2.isNone then none else some "a.png") ∧
    (generate_variations (fun _ => some 3)
        (fun _ _ => (Except.ok () : Except String Unit))
        (fun i => (Except.ok i : Except String ℕ)) "x.png"
        (UIState.mk (some "a.png") (some "out") "3" 0 "Ready" true)
      ).1.output_directory =
      (if (processLoop (fun _ _ => (Except.ok () : Except String Unit))
          (fun i => (Except.ok i : Except String ℕ))
          ((some "out" : Option String).getD "") "x.png" (3 : ℤ).toNat 0
          ).2.2.isNone then none else some "out") ∧
    (generate_variations (fun _ => some 3)
        (fun _ _ => (Except.ok () : Except String Unit))
        (fun i => (Except.ok i : Except String ℕ)) "x.png"
        (UIState.mk (some "a.png") (some "out") "3" 0 "Ready" true)
      ).1.num_variations_entry =
      (if (processLoop (fun _ _ => (Except.ok () : Except String Unit))
          (fun i => (Except.ok i : Except String ℕ))
          ((some "out" : Option String).getD "") "x.png" (3 : ℤ).toNat 0
          ).2.2.isNone then "" else "3") ∧
    (generate_variations (fun _ => some 3)
        (fun _ _ => (Except.ok () : Except String Unit))
        (fun i => (Except.ok i : Except String ℕ)) "x.png"
        (UIState.mk (some "a.png") (some "out") "3" 0 "Ready" true)
      ).1.progress = 0 ∧
    (generate_variations (fun _ => some 3)
        (fun _ _ => (Except.ok () : Except String Unit))
        (fun i => (Except.ok i : Except String ℕ)) "x.png"
        (UIState.mk (some "a.png") (some "out") "3" 0 "Ready" true)
      ).1.buttons_enabled = true :=
  run_end_state (fun _ => some 3)
    (fun _ _ => (Except.ok () : Except String Unit))
    (fun i => (Except.ok i : Except String ℕ)) "x.png"
    (UIState.mk (some "a.png") (some "out") "3" 0 "Ready" true) 3
    rfl (by norm_num) rfl rfl

end ImageVariationApp
